import Mathlib

/-!
# Verification of the Bonkfun volume bot core

Shallow embedding of the orchestration / retry / wallet-lifecycle / metrics
machinery of the bot (sources: `src/types/index.ts`,
`src/managers/TransactionManager.ts`, `src/managers/WalletManager.ts`,
`src/engine/TradingEngine.ts`, `src/utils/MetricsCollector.ts`).

JS numbers are modelled as `ℚ` (all arithmetic in scope is exact), counters as
`ℕ`, promises as their eventual outcomes (`Except`), `Promise.allSettled`
results as an explicit `Settled` sum, and the wallet store as an explicit
file-system value.
-/

namespace Bonkbot

/-! ## Data model (`src/types/index.ts`) -/

/-- A `{min, max}` range of JS numbers (used for buy/sell amounts, wallet
counts and inter-cycle delays in `BotConfig`). -/
structure AmountRange where
  lo : ℚ
  hi : ℚ
deriving DecidableEq, Repr

/-- Model of `BotConfig` from `src/types/index.ts`. -/
structure BotConfig where
  tokenMint : String
  buyAmount : AmountRange
  sellAmount : AmountRange
  walletCount : AmountRange
  delay : AmountRange
  cycles : ℕ
  jitoTip : ℚ
  dryRun : Bool
deriving DecidableEq, Repr

/-- Model of `TransactionResult` from `src/types/index.ts`: optional fields are
`Option`s (`undefined` = `none`). -/
structure TransactionResult where
  signature : String
  success : Bool
  error : Option String
  executionTime : ℚ
  gasUsed : Option ℚ
  volume : Option ℚ
deriving DecidableEq, Repr

/-- Model of `RetryConfig` from `src/types/index.ts`. -/
structure RetryConfig where
  maxAttempts : ℕ
  baseDelay : ℕ
  maxDelay : ℕ
  backoffMultiplier : ℕ
deriving DecidableEq, Repr

/-- Model of `DEFAULT_RETRY_CONFIG` from `src/types/index.ts`. -/
def DEFAULT_RETRY_CONFIG : RetryConfig :=
  { maxAttempts := 3, baseDelay := 1000, maxDelay := 10000, backoffMultiplier := 2 }

/-! ## `TransactionManager.calculateRetryDelay` -/

/-- Model of `TransactionManager.calculateRetryDelay`:
`delay = baseDelay * multiplier ^ (attempt - 1); return Math.min(delay, maxDelay)`.
All default config values are integers, so `ℕ` arithmetic is exact. -/
def calculateRetryDelay (cfg : RetryConfig) (attempt : ℕ) : ℕ :=
  min (cfg.baseDelay * cfg.backoffMultiplier ^ (attempt - 1)) cfg.maxDelay

/-! ## `TradingEngine` random draws

`Math.random()` is modelled as an explicit parameter `r` (a rational in
`[0,1)` supplied by the environment). -/

/-- Model of `TradingEngine.getRandomAmount`: `min + Math.random() * (max - min)`. -/
def getRandomAmount (range : AmountRange) (r : ℚ) : ℚ :=
  range.lo + r * (range.hi - range.lo)

/-- Model of `TradingEngine.getRandomWalletCount`:
`Math.floor(min + Math.random() * (max - min))`. -/
def getRandomWalletCount (range : AmountRange) (r : ℚ) : ℤ :=
  ⌊range.lo + r * (range.hi - range.lo)⌋

/-- Model of `TradingEngine.getRandomDelay`: `min + Math.random() * (max - min)`
(value in seconds; the engine sleeps `delay * 1000` milliseconds). -/
def getRandomDelay (range : AmountRange) (r : ℚ) : ℚ :=
  range.lo + r * (range.hi - range.lo)

/-! ## `MetricsCollector` (`src/utils/MetricsCollector.ts`) -/

/-- Model of `TradingMetrics` from `src/types/index.ts`. Counters are `ℕ`; the derived
rates are JS numbers, modelled as `ℚ`. -/
structure TradingMetrics where
  totalTransactions : ℕ
  successfulTransactions : ℕ
  failedTransactions : ℕ
  successRate : ℚ
  totalVolume : ℚ
  averageTransactionTime : ℚ
  totalFees : ℚ
  profitLoss : ℚ
deriving DecidableEq, Repr

/-- In-memory state of a `MetricsCollector` (its `metrics` record plus the
`transactionTimes` array; the wall-clock `startTime` is not modelled). -/
structure CollectorState where
  metrics : TradingMetrics
  transactionTimes : List ℚ
deriving DecidableEq, Repr

/-- The metrics record installed by the constructor and by `reset()`. -/
def freshMetrics : TradingMetrics :=
  { totalTransactions := 0, successfulTransactions := 0, failedTransactions := 0
  , successRate := 0, totalVolume := 0, averageTransactionTime := 0
  , totalFees := 0, profitLoss := 0 }

/-- Collector state after the constructor or `reset()`. -/
def initialCollector : CollectorState :=
  { metrics := freshMetrics, transactionTimes := [] }

/-- Model of `MetricsCollector.calculateSuccessRate`:
`(successful / total) * 100`, `0` when `total == 0`. -/
def calculateSuccessRate (m : TradingMetrics) : ℚ :=
  if m.totalTransactions = 0 then 0
  else ((m.successfulTransactions : ℚ) / (m.totalTransactions : ℚ)) * 100

/-- Model of `MetricsCollector.calculateAverageTransactionTime`:
`reduce((sum, t) => sum + t, 0) / length`, `0` when the array is empty. -/
def calculateAverageTransactionTime (times : List ℚ) : ℚ :=
  if times = [] then 0
  else (times.foldl (fun sum t => sum + t) 0) / (times.length : ℚ)

/-- Model of `MetricsCollector.recordTransaction`. The JS truthiness guards
`if (result.volume)` / `if (result.gasUsed)` skip both `undefined` and `0`. -/
def recordTransaction (c : CollectorState) (result : TransactionResult) : CollectorState :=
  let m := c.metrics
  let m := { m with totalTransactions := m.totalTransactions + 1 }
  let m :=
    if result.success then
      { m with successfulTransactions := m.successfulTransactions + 1 }
    else
      { m with failedTransactions := m.failedTransactions + 1 }
  let m := { m with successRate := calculateSuccessRate m }
  let times := c.transactionTimes ++ [result.executionTime]
  let m := { m with averageTransactionTime := calculateAverageTransactionTime times }
  let m :=
    match result.volume with
    | some v => if v = 0 then m else { m with totalVolume := m.totalVolume + v }
    | none => m
  let m :=
    match result.gasUsed with
    | some g => if g = 0 then m else { m with totalFees := m.totalFees + g }
    | none => m
  { metrics := m, transactionTimes := times }

/-- Model of `MetricsCollector.isHealthy`:
`totalTransactions > 0 && successRate >= 80 && averageTransactionTime <= 30000`. -/
def isHealthy (m : TradingMetrics) : Bool :=
  decide (m.totalTransactions > 0) && decide (m.successRate ≥ 80)
    && decide (m.averageTransactionTime ≤ 30000)

/-- Consistency invariant of a collector state: the counters add up, the
stored transaction count matches the recorded time samples, and the derived
rate/mean fields equal their recomputation from the stored data. -/
def collectorInv (c : CollectorState) : Prop :=
  c.metrics.totalTransactions
      = c.metrics.successfulTransactions + c.metrics.failedTransactions
  ∧ c.metrics.totalTransactions = c.transactionTimes.length
  ∧ c.metrics.successRate = calculateSuccessRate c.metrics
  ∧ c.metrics.averageTransactionTime
      = calculateAverageTransactionTime c.transactionTimes

/-! ## `TransactionManager.executeTransaction`

One attempt of `sendTransaction` (blockhash fetch, signing, optional
simulation, submission, confirmation wait) either produces a signature or
throws; it is modelled by its outcome `send attempt : Except String String`
(error value = the thrown error's message). -/

/-- The `BotError` message thrown after the retry loop:
`Transaction failed after N attempts: LAST`. When no attempt ever ran
(`maxAttempts = 0`) the JS template prints `undefined` for
`lastError?.message`. -/
def exhaustMsg (maxAttempts : ℕ) (lastError : Option String) : String :=
  "Transaction failed after " ++ toString maxAttempts ++ " attempts: "
    ++ lastError.getD "undefined"

/-- The retry loop of `TransactionManager.executeTransaction`:
`for (attempt = 1; attempt <= maxAttempts; attempt++)`, returning the first
successful signature, tracking `lastError`, and throwing `exhaustMsg` once
the loop is exhausted. -/
def execAttempts (send : ℕ → Except String String) (maxAttempts : ℕ)
    (attempt : ℕ) (lastError : Option String) : Except String String :=
  if _h : attempt ≤ maxAttempts then
    match send attempt with
    | .ok sig => .ok sig
    | .error e => execAttempts send maxAttempts (attempt + 1) (some e)
  else
    .error (exhaustMsg maxAttempts lastError)
termination_by maxAttempts + 1 - attempt
decreasing_by omega

/-- Model of `TransactionManager.executeTransaction`: the retry loop started at
attempt 1 with `maxAttempts` taken from `DEFAULT_RETRY_CONFIG`. -/
def executeTransaction (send : ℕ → Except String String) : Except String String :=
  execAttempts send DEFAULT_RETRY_CONFIG.maxAttempts 1 none

/-- One element of the result array of
`TransactionManager.executeTransactionsParallel` /
`executeTransactionsSequential`:
`{ success: boolean; signature?: string; error?: string }`. -/
structure ParallelResult where
  success : Bool
  signature : Option String
  error : Option String
deriving DecidableEq, Repr

/-- Per-operation wrapper inside `executeTransactionsParallel`: awaits
`executeTransaction` and catches its rejection, so each input position always
yields a result. -/
def parallelResultOf (send : ℕ → Except String String) : ParallelResult :=
  match executeTransaction send with
  | .ok sig => { success := true, signature := some sig, error := none }
  | .error e => { success := false, signature := none, error := some e }

/-- Model of `TransactionManager.executeTransactionsParallel`: fires every operation,
then `Promise.all` of the caught wrappers returns one result per input
position, in input order. -/
def executeTransactionsParallel (ops : List (ℕ → Except String String)) :
    List ParallelResult :=
  ops.map parallelResultOf

/-! ## `TradingEngine` per-transaction executors

`TradingEngine.executeBuyTransaction` / `executeSellTransaction` wrap their
whole body in `try/catch` and return a `TransactionResult` in both branches,
so (as Lean total functions) they never reject. `instrOk` models whether
`poolManager.getSwapInstruction` returned an instruction (`null` → the thrown
`BotError` is caught by the same function). -/

/-- Model of `TradingEngine.executeBuyTransaction`. -/
def executeBuyTransaction (instrOk : Bool) (amount : ℚ)
    (send : ℕ → Except String String) (elapsed : ℚ) : TransactionResult :=
  if instrOk then
    match executeTransaction send with
    | .ok sig =>
      { signature := sig, success := true, error := none
      , executionTime := elapsed, gasUsed := none, volume := some amount }
    | .error e =>
      { signature := "", success := false, error := some e
      , executionTime := elapsed, gasUsed := none, volume := none }
  else
    { signature := "", success := false, error := some "Failed to get swap instruction"
    , executionTime := elapsed, gasUsed := none, volume := none }

/-- Model of `TradingEngine.executeSellTransaction` (same shape as the buy executor,
with the sell-direction error message). -/
def executeSellTransaction (instrOk : Bool) (amount : ℚ)
    (send : ℕ → Except String String) (elapsed : ℚ) : TransactionResult :=
  if instrOk then
    match executeTransaction send with
    | .ok sig =>
      { signature := sig, success := true, error := none
      , executionTime := elapsed, gasUsed := none, volume := some amount }
    | .error e =>
      { signature := "", success := false, error := some e
      , executionTime := elapsed, gasUsed := none, volume := none }
  else
    { signature := "", success := false, error := some "Failed to get sell instruction"
    , executionTime := elapsed, gasUsed := none, volume := none }

/-! ## `WalletManager` wallet store (`src/managers/WalletManager.ts`)

The wallet store is the on-disk state: a set of directories and a list of
files, each with the directory it lives in, its file name, its creation time
(`fs.statSync(..).birthtime`, in ms) and the public key recorded in its JSON
payload. Times are ms since epoch. -/

/-- One wallet file on disk. -/
structure FsFile where
  dir : String
  name : String
  birthtime : ℚ
  pubkey : String
deriving DecidableEq, Repr

/-- The relevant slice of the file system. -/
structure WalletStore where
  dirs : List String
  files : List FsFile
deriving DecidableEq, Repr

/-- Model of `path.join` for one segment as used here (appending a path separator;
joining the empty segment is the identity). -/
def pathJoin (base seg : String) : String :=
  if seg = "" then base else base ++ "/" ++ seg

/-- Model of `this.walletsDir = path.join(process.cwd(), 'data', 'wallets')`, with the
process working directory left abstract. -/
def walletsDir : String := "data/wallets"

/-- Model of `WalletManager.saveWallet` (called by `createWallets` for each generated
keypair): writes `wallet_<pubkey>.json` into `this.walletsDir` — its optional
`tokenMint` parameter is unused, so the file never lands in a per-token
subdirectory. -/
def saveWallet (store : WalletStore) (pk : String) (t : ℚ) : WalletStore :=
  { store with
    files := store.files ++ [{ dir := walletsDir
                             , name := "wallet_" ++ pk ++ ".json"
                             , birthtime := t
                             , pubkey := pk }] }

/-- Model of `WalletManager.getWalletsForSelling`: scans
`path.join(this.walletsDir, tokenMint)` (returning `[]` when that directory
does not exist), keeps `.json` files whose age `now - birthtime` is at least
30000 ms, and loads their keypairs (represented by the stored pubkey). -/
def getWalletsForSelling (store : WalletStore) (tokenMint : String) (now : ℚ) :
    List String :=
  let tokenWalletsDir := pathJoin walletsDir tokenMint
  if store.dirs.contains tokenWalletsDir then
    (store.files.filter fun f =>
      decide (f.dir = tokenWalletsDir) && f.name.endsWith ".json"
        && decide (now - f.birthtime ≥ 30000)).map (fun f => f.pubkey)
  else []

/-- A store holding only the two directories `ensureDirectories` creates and
the per-token directory for token mint `"MINT"`, with no files: the state
right before a wallet is created. -/
def emptyStoreWithMint : WalletStore :=
  { dirs := [walletsDir, "data/backup", pathJoin walletsDir "MINT"], files := [] }

/-! ## `TradingEngine.executeSession` orchestration

The session loop is deterministic given an environment: the pool lookup
outcome, the `Math.random()` draws, the per-wallet transaction outcomes, the
eligible sell wallets each cycle, and the `isRunning` flag as observed at the
top of each iteration. `Promise.allSettled` outcomes are an explicit
`Settled` value; since `executeBuyTransaction` / `executeSellTransaction`
catch every error and return, their promises are always `fulfilled`. -/

/-- Outcome of one promise under `Promise.allSettled`. -/
inductive Settled (α : Type) where
  | fulfilled (value : α)
  | rejected (reason : String)
deriving DecidableEq, Repr

/-- Mutable state of a `TradingSession` (`src/types/index.ts`): the lifecycle
flags and the running counters. (`id`, `config` and `startTime` are
immutable and not part of the mutated state.) -/
structure SessionState where
  isActive : Bool
  endTime : Option ℚ
  totalTransactions : ℕ
  successfulTransactions : ℕ
  failedTransactions : ℕ
  totalVolume : ℚ
deriving DecidableEq, Repr

/-- A `TradingSession` as freshly constructed. -/
def newTradingSession : SessionState :=
  { isActive := false, endTime := none, totalTransactions := 0
  , successfulTransactions := 0, failedTransactions := 0, totalVolume := 0 }

/-- Environment of one per-wallet transaction: whether the swap instruction
is available, the per-attempt submission outcomes, and the measured elapsed
time. -/
structure TxEnv where
  instrOk : Bool
  send : ℕ → Except String String
  elapsed : ℚ

/-- Environment of one trading cycle: the three `Math.random()` draws, the
per-created-wallet transaction environments, whether the sell-wallet lookup
throws (`getWalletsForSelling` I/O failure — the only uncaught throw inside
a cycle), and the eligible sell wallets with their per-wallet amount draw. -/
structure CycleEnv where
  buyRand : ℚ
  countRand : ℚ
  delayRand : ℚ
  buyTx : ℕ → TxEnv
  sellAbort : Option String
  sellWallets : List (ℚ × TxEnv)

/-- Per-result accounting in `executeBuyTransactions` (lines 546-560): a
fulfilled result increments `totalTransactions` and one of the
success/failure counters (volume += the drawn buy amount on success); a
rejected promise increments `failedTransactions` alone. -/
def processBuyResult (buyAmount : ℚ) (s : SessionState)
    (r : Settled TransactionResult) : SessionState :=
  match r with
  | .fulfilled v =>
    let s := { s with totalTransactions := s.totalTransactions + 1 }
    if v.success then
      { s with successfulTransactions := s.successfulTransactions + 1
             , totalVolume := s.totalVolume + buyAmount }
    else
      { s with failedTransactions := s.failedTransactions + 1 }
  | .rejected _ => { s with failedTransactions := s.failedTransactions + 1 }

/-- Per-result accounting in `executeSellBatch` (lines 684-699): same shape
as the buy loop but volume += `result.value.volume || 0`. -/
def processSellResult (s : SessionState) (r : Settled TransactionResult) :
    SessionState :=
  match r with
  | .fulfilled v =>
    let s := { s with totalTransactions := s.totalTransactions + 1 }
    if v.success then
      { s with successfulTransactions := s.successfulTransactions + 1
             , totalVolume := s.totalVolume + v.volume.getD 0 }
    else
      { s with failedTransactions := s.failedTransactions + 1 }
  | .rejected _ => { s with failedTransactions := s.failedTransactions + 1 }

/-- Model of `TradingEngine.executeBuyTransactions`: one buy per created wallet, all
settled concurrently, then the accounting loop over the settled results. -/
def executeBuyTransactions (s : SessionState) (buyAmount : ℚ)
    (txs : List TxEnv) : SessionState :=
  let results : List (Settled TransactionResult) :=
    txs.map fun e =>
      Settled.fulfilled (executeBuyTransaction e.instrOk buyAmount e.send e.elapsed)
  results.foldl (processBuyResult buyAmount) s

/-- Model of `TradingEngine.executeSellBatch`: per-wallet sell amount drawn from the
sell range, all settled concurrently, then the accounting loop. -/
def executeSellBatch (sellRange : AmountRange) (s : SessionState)
    (batch : List (ℚ × TxEnv)) : SessionState :=
  let results : List (Settled TransactionResult) :=
    batch.map fun p =>
      Settled.fulfilled
        (executeSellTransaction p.2.instrOk (getRandomAmount sellRange p.1)
          p.2.send p.2.elapsed)
  results.foldl processSellResult s

/-- The `for (i = 0; i < wallets.length; i += 5) slice(i, i + 5)` batching of
`executeSellTransactions` (batch size 5). -/
def toBatches5 (l : List (ℚ × TxEnv)) : List (List (ℚ × TxEnv)) :=
  match l with
  | [] => []
  | x :: xs => (x :: xs).take 5 :: toBatches5 ((x :: xs).drop 5)
termination_by l.length
decreasing_by
  simp only [List.length_drop, List.length_cons]
  omega

/-- Model of `TradingEngine.executeSellTransactions`: early return when no wallet is
eligible, otherwise process the eligible wallets in batches of 5. -/
def executeSellTransactions (sellRange : AmountRange) (s : SessionState)
    (wallets : List (ℚ × TxEnv)) : SessionState :=
  if wallets.isEmpty then s
  else (toBatches5 wallets).foldl (executeSellBatch sellRange) s

/-- Model of `TradingEngine.executeTradingCycle`: draw the cycle's buy amount and
wallet count, create that many wallets, run the buy fan-out, then (unless
the sell-wallet lookup throws — the error is rethrown with the state already
mutated by the buy phase) the sell fan-out. -/
def executeTradingCycle (cfg : BotConfig) (s : SessionState) (env : CycleEnv) :
    SessionState × Option String :=
  let buyAmount := getRandomAmount cfg.buyAmount env.buyRand
  let walletCount := (getRandomWalletCount cfg.walletCount env.countRand).toNat
  let wallets := (List.range walletCount).map env.buyTx
  let s := executeBuyTransactions s buyAmount wallets
  match env.sellAbort with
  | some e => (s, some e)
  | none => (executeSellTransactions cfg.sellAmount s env.sellWallets, none)

/-- Observable scheduler events of the session loop: a completed trading
cycle, and the inter-cycle sleep (`delay(getRandomDelay(..) * 1000)`,
argument in ms). The settle pause and intra-cycle batch pauses are not part
of this trace. -/
inductive Event where
  | cycle (n : ℕ)
  | interSleep (ms : ℚ)
deriving DecidableEq, Repr

/-- The cycle loop of `executeSession`
(`for (cycle = 0; cycle < cycles; cycle++)`), structurally recursive on the
number of remaining iterations: check `isRunning` at the top, run the cycle
(propagating a cycle error immediately), then sleep the randomized
inter-cycle delay. Returns the final state, the event trace, and the loop's
outcome. -/
def sessionLoop (cfg : BotConfig) (running : ℕ → Bool) (envs : ℕ → CycleEnv) :
    ℕ → ℕ → SessionState → SessionState × List Event × Except String Unit
  | 0, _, s => (s, [], .ok ())
  | remaining + 1, i, s =>
    if running i then
      match executeTradingCycle cfg s (envs i) with
      | (s', some e) => (s', [], .error e)
      | (s', none) =>
        let d := getRandomDelay cfg.delay (envs i).delayRand
        let rest := sessionLoop cfg running envs remaining (i + 1) s'
        (rest.1, Event.cycle i :: Event.interSleep (d * 1000) :: rest.2.1, rest.2.2)
    else (s, [], .ok ())

/-- Result of `executeSession`: the session object as left behind, the
scheduler trace, and the normal/error outcome seen by the caller. -/
structure SessionRun where
  session : SessionState
  trace : List Event
  outcome : Except String Unit

/-- Model of `TradingEngine.executeSession`: set `isActive`, validate the pool
(throwing `BotError` when it cannot be resolved), run the cycle loop, then
set `endTime`/`isActive` — the `catch` block performs the same bookkeeping
before rethrowing the error. -/
def executeSession (cfg : BotConfig) (poolFound : Bool) (running : ℕ → Bool)
    (envs : ℕ → CycleEnv) (endT : ℚ) : SessionRun :=
  let s0 := { newTradingSession with isActive := true }
  let body : SessionState × List Event × Except String Unit :=
    if poolFound then
      match sessionLoop cfg running envs cfg.cycles 0 s0 with
      | (s', tr, .ok _) =>
        ({ s' with isActive := false, endTime := some endT }, tr, .ok ())
      | (s', tr, .error e) => (s', tr, .error e)
    else
      (s0, [], .error ("Pool not found for token: " ++ cfg.tokenMint))
  match body with
  | (s', tr, .error e) =>
    { session := { s' with isActive := false, endTime := some endT }
    , trace := tr, outcome := .error e }
  | (s', tr, .ok _) => { session := s', trace := tr, outcome := .ok () }

/-- The indices of the cycles the loop actually executes: from `i` with
`remaining` iterations left, as long as the running flag (sampled at the top
of each iteration) stays `true`. -/
def executedCycles (running : ℕ → Bool) : ℕ → ℕ → List ℕ
  | 0, _ => []
  | remaining + 1, i =>
    if running i then i :: executedCycles running remaining (i + 1) else []

/-- Session counters consistency: the totals add up. -/
def countersOk (s : SessionState) : Prop :=
  s.totalTransactions = s.successfulTransactions + s.failedTransactions

/-- Transaction environment with no activity, used only to instantiate
theorems on concrete inputs. -/
def trivTxEnv : TxEnv :=
  { instrOk := false, send := fun _ => .error "unused", elapsed := 0 }

/-- Cycle environment with zero draws, no created wallets and no sell
wallets, used only to instantiate theorems on concrete inputs. -/
def trivCycleEnv : CycleEnv :=
  { buyRand := 0, countRand := 0, delayRand := 0, buyTx := fun _ => trivTxEnv
  , sellAbort := none, sellWallets := [] }

/-- One-cycle configuration with a degenerate 2-second delay range, used
only to instantiate theorems on concrete inputs. -/
def cfgOneCycle : BotConfig :=
  { tokenMint := "MINT", buyAmount := ⟨1, 1⟩, sellAmount := ⟨1, 1⟩
  , walletCount := ⟨0, 0⟩, delay := ⟨2, 2⟩, cycles := 1, jitoTip := 0
  , dryRun := false }

/-- Concrete send behavior used only to instantiate the contract theorems:
fails on every attempt except attempt 2. -/
def sendOkAt2 : ℕ → Except String String :=
  fun k => if k = 2 then .ok "sig2" else .error "boom"

/-- Concrete send behavior used only to instantiate the contract theorems:
fails on every attempt with a per-attempt message. -/
def sendAlwaysFail : ℕ → Except String String :=
  fun k => .error ("fail" ++ toString k)

end Bonkbot

namespace Bonkbot

/-! ## Theorems: retry delay (C3), random draws (C8), health check (C9) -/

theorem calculateRetryDelay_le (cfg : RetryConfig) (k : ℕ) :
    calculateRetryDelay cfg k ≤ cfg.maxDelay :=
  min_le_right _ _

theorem calculateRetryDelay_mono (cfg : RetryConfig) (hmul : 1 ≤ cfg.backoffMultiplier)
    (k : ℕ) (hk : 1 ≤ k) :
    calculateRetryDelay cfg k ≤ calculateRetryDelay cfg (k + 1) := by
  unfold calculateRetryDelay
  apply min_le_min_right
  apply Nat.mul_le_mul_left
  exact Nat.pow_le_pow_right hmul (by omega)

/-- C3: for every attempt `k ≥ 1` the computed retry delay equals
`min (baseDelay * multiplier ^ (k-1)) maxDelay`; for the default policy
(base 1000 ms, multiplier 2, cap 10000 ms) it never exceeds `maxDelay` and is
non-decreasing in `k`. -/
theorem retry_delay_formula_bounded_monotone (k : ℕ) (hk : 1 ≤ k) :
    calculateRetryDelay DEFAULT_RETRY_CONFIG k = min (1000 * 2 ^ (k - 1)) 10000
    ∧ calculateRetryDelay DEFAULT_RETRY_CONFIG k ≤ 10000
    ∧ calculateRetryDelay DEFAULT_RETRY_CONFIG k
        ≤ calculateRetryDelay DEFAULT_RETRY_CONFIG (k + 1) := by
  refine ⟨rfl, calculateRetryDelay_le _ _, ?_⟩
  exact calculateRetryDelay_mono _ (by norm_num [DEFAULT_RETRY_CONFIG]) k hk

/-- Witness for `retry_delay_formula_bounded_monotone` at `k = 3`. -/
theorem retry_delay_formula_bounded_monotone_witness :
    calculateRetryDelay DEFAULT_RETRY_CONFIG 3 = min (1000 * 2 ^ (3 - 1)) 10000
    ∧ calculateRetryDelay DEFAULT_RETRY_CONFIG 3 ≤ 10000
    ∧ calculateRetryDelay DEFAULT_RETRY_CONFIG 3
        ≤ calculateRetryDelay DEFAULT_RETRY_CONFIG (3 + 1) :=
  retry_delay_formula_bounded_monotone 3 (by decide)

/-- C8: over a degenerate range `min = max = v`, `getRandomAmount` returns `v`
for every value of the underlying random draw, and `getRandomWalletCount` over
a degenerate integer range `{min: n, max: n}` always returns `n`. -/
theorem degenerate_range_deterministic :
    (∀ (v r : ℚ), getRandomAmount ⟨v, v⟩ r = v)
    ∧ (∀ (n : ℕ) (r : ℚ), getRandomWalletCount ⟨(n : ℚ), (n : ℚ)⟩ r = (n : ℤ)) := by
  constructor
  · intro v r
    simp [getRandomAmount]
  · intro n r
    simp [getRandomWalletCount]

/-- C9: `isHealthy` returns `true` iff the recorded transaction count is
positive, the recorded success rate is at least 80 and the recorded average
transaction time is at most 30000 ms. -/
theorem isHealthy_iff (m : TradingMetrics) :
    isHealthy m = true ↔
      0 < m.totalTransactions ∧ 80 ≤ m.successRate ∧ m.averageTransactionTime ≤ 30000 := by
  simp [isHealthy, and_assoc]

/-! ## Theorems: wallet store (C2) -/

theorem pathJoin_ne_base (base seg : String) (h : seg ≠ "") :
    base ≠ pathJoin base seg := by
  unfold pathJoin
  rw [if_neg h]
  intro hcontra
  have hdata : base.data = base.data ++ "/".data ++ seg.data := by
    conv_lhs => rw [hcontra]
    simp
  have hlen := congrArg List.length hdata
  simp [List.length_append] at hlen

/-- C2 (evidence for the code bug): saving a freshly created wallet never
changes the result of the sell-eligibility query for any (nonempty) token
mint, at any query time — `saveWallet` writes `wallet_<pk>.json` into the
wallets root directory while `getWalletsForSelling` scans only the
`walletsDir/tokenMint` subdirectory. Hence a wallet created at time `T` is
still absent from the query at `T + 31s`, contradicting the claimed
presence. -/
theorem saveWallet_invisible_to_selling (store : WalletStore) (pk : String)
    (t now : ℚ) (mint : String) (hmint : mint ≠ "") :
    getWalletsForSelling (saveWallet store pk t) mint now
      = getWalletsForSelling store mint now := by
  unfold getWalletsForSelling saveWallet
  simp only
  split_ifs with hdir
  · rw [List.filter_append]
    have hne : walletsDir ≠ pathJoin walletsDir mint := pathJoin_ne_base _ _ hmint
    simp [hne]
  · rfl

/-- Witness for `saveWallet_invisible_to_selling`, evaluated at the failing
input of the claim: a wallet with pubkey `"PK"` created at `T = 0` ms is
absent from `getWalletsForSelling` for mint `"MINT"` at `now = 31000` ms
(31 s later), because the query result equals the query over the store
without the wallet, which is empty. -/
theorem saveWallet_invisible_to_selling_witness :
    getWalletsForSelling (saveWallet emptyStoreWithMint "PK" 0) "MINT" 31000
      = getWalletsForSelling emptyStoreWithMint "MINT" 31000
    ∧ getWalletsForSelling emptyStoreWithMint "MINT" 31000 = [] :=
  ⟨saveWallet_invisible_to_selling emptyStoreWithMint "PK" 0 31000 "MINT"
      (by decide),
    by decide⟩

/-! ## Theorems: metrics aggregator (C10) -/

theorem recordTransaction_spec (c : CollectorState) (r : TransactionResult) :
    (recordTransaction c r).transactionTimes = c.transactionTimes ++ [r.executionTime]
    ∧ (recordTransaction c r).metrics.totalTransactions
        = c.metrics.totalTransactions + 1
    ∧ (recordTransaction c r).metrics.successfulTransactions
        = c.metrics.successfulTransactions + (if r.success then 1 else 0)
    ∧ (recordTransaction c r).metrics.failedTransactions
        = c.metrics.failedTransactions + (if r.success then 0 else 1)
    ∧ (recordTransaction c r).metrics.successRate
        = calculateSuccessRate (recordTransaction c r).metrics
    ∧ (recordTransaction c r).metrics.averageTransactionTime
        = calculateAverageTransactionTime (recordTransaction c r).transactionTimes := by
  unfold recordTransaction
  cases hv : r.volume <;> cases hg : r.gasUsed <;> cases hs : r.success <;>
    simp [calculateSuccessRate] <;> split_ifs <;> simp_all

theorem collectorInv_record (c : CollectorState) (r : TransactionResult)
    (h : collectorInv c) : collectorInv (recordTransaction c r) := by
  obtain ⟨h1, h2, h3, h4⟩ := h
  obtain ⟨s1, s2, s3, s4, s5, s6⟩ := recordTransaction_spec c r
  refine ⟨?_, ?_, s5, s6⟩
  · rw [s2, s3, s4, h1]
    cases r.success <;> simp <;> omega
  · rw [s2, s1, h2, List.length_append, List.length_singleton]

theorem collectorInv_foldl (rs : List TransactionResult) :
    ∀ c, collectorInv c → collectorInv (rs.foldl recordTransaction c) := by
  induction rs with
  | nil => intro c h; simpa using h
  | cons r rest ih =>
    intro c h
    simpa using ih _ (collectorInv_record c r h)

theorem foldl_record_times (rs : List TransactionResult) :
    ∀ c, (rs.foldl recordTransaction c).transactionTimes
      = c.transactionTimes ++ rs.map (fun r => r.executionTime) := by
  induction rs with
  | nil => simp
  | cons r rest ih =>
    intro c
    rw [List.foldl_cons, ih, (recordTransaction_spec c r).1]
    simp

/-- C10: after any sequence of `recordTransaction` calls starting from a
fresh (or `reset`) collector: the counters add up
(`total = successful + failed`), the stored success rate equals
`100 * successful / total` (0 when `total = 0`), and the stored average
transaction time is the arithmetic mean of the recorded `executionTime`
values (0 when none). -/
theorem metricsCollector_running_stats (rs : List TransactionResult) :
    (rs.foldl recordTransaction initialCollector).metrics.totalTransactions
        = (rs.foldl recordTransaction initialCollector).metrics.successfulTransactions
          + (rs.foldl recordTransaction initialCollector).metrics.failedTransactions
    ∧ (rs.foldl recordTransaction initialCollector).metrics.successRate
        = (if (rs.foldl recordTransaction initialCollector).metrics.totalTransactions = 0
           then 0
           else 100 * ((rs.foldl recordTransaction initialCollector).metrics.successfulTransactions : ℚ)
                  / ((rs.foldl recordTransaction initialCollector).metrics.totalTransactions : ℚ))
    ∧ (rs.foldl recordTransaction initialCollector).metrics.averageTransactionTime
        = (if rs = [] then 0
           else (rs.map (fun r => r.executionTime)).sum / (rs.length : ℚ)) := by
  have hinv : collectorInv (rs.foldl recordTransaction initialCollector) :=
    collectorInv_foldl rs initialCollector
      ⟨rfl, rfl, by simp [calculateSuccessRate, freshMetrics, initialCollector],
        by simp [calculateAverageTransactionTime, freshMetrics, initialCollector]⟩
  obtain ⟨h1, h2, h3, h4⟩ := hinv
  have htimes0 : initialCollector.transactionTimes = ([] : List ℚ) := rfl
  have htimes := foldl_record_times rs initialCollector
  rw [htimes0, List.nil_append] at htimes
  refine ⟨h1, ?_, ?_⟩
  · rw [h3]
    unfold calculateSuccessRate
    split_ifs with h0
    · rfl
    · rw [div_mul_eq_mul_div, mul_comm]
  · rw [h4, htimes]
    unfold calculateAverageTransactionTime
    have hsum : ∀ l : List ℚ, l.foldl (fun sum t => sum + t) 0 = l.sum :=
      fun l => (List.sum_eq_foldl).symm
    rw [hsum]
    simp only [List.length_map]
    split_ifs with ha hb hb
    · rfl
    · exact absurd (List.map_eq_nil_iff.mp ha) hb
    · simp [hb]
    · rfl

/-! ## Theorems: transaction execution engine (C4, C5) -/

theorem execAttempts_all_fail (send : ℕ → Except String String) (m : ℕ) (errs : ℕ → String) :
    ∀ (d a : ℕ) (last : Option String), m + 1 - a = d → a ≤ m →
      (∀ k, a ≤ k → k ≤ m → send k = Except.error (errs k)) →
      execAttempts send m a last = Except.error (exhaustMsg m (some (errs m))) := by
  intro d
  induction d with
  | zero => intro a last hd ha _; omega
  | succ n ih =>
    intro a last hd ha hfail
    rw [execAttempts.eq_def, dif_pos ha, hfail a le_rfl ha]
    rcases Nat.lt_or_ge a m with hlt | hge
    · exact ih (a + 1) (some (errs a)) (by omega) (by omega)
        (fun k hk1 hk2 => hfail k (by omega) hk2)
    · have ham : a = m := le_antisymm ha hge
      subst ham
      have htail : execAttempts send a (a + 1) (some (errs a))
          = Except.error (exhaustMsg a (some (errs a))) := by
        rw [execAttempts.eq_def, dif_neg (by omega)]
      exact htail

theorem execAttempts_first_ok (send : ℕ → Except String String) (m j : ℕ) (sig : String)
    (hjm : j ≤ m) (hok : send j = Except.ok sig) :
    ∀ (d a : ℕ) (last : Option String), m + 1 - a = d → a ≤ j →
      (∀ k, a ≤ k → k < j → ∃ e, send k = Except.error e) →
      execAttempts send m a last = Except.ok sig := by
  intro d
  induction d with
  | zero => intro a last hd ha _; omega
  | succ n ih =>
    intro a last hd ha hfail
    rw [execAttempts.eq_def, dif_pos (by omega)]
    rcases Nat.lt_or_ge a j with hlt | hge
    · obtain ⟨e, he⟩ := hfail a le_rfl hlt
      rw [he]
      exact ih (a + 1) (some e) (by omega) (by omega)
        (fun k hk1 hk2 => hfail k (by omega) hk2)
    · have haj : a = j := le_antisymm ha hge
      subst haj
      rw [hok]

/-- C4: `executeTransaction` returns the signature of the first attempt that
succeeds (making at most `maxAttempts` attempts); when all `maxAttempts`
consecutive attempts fail it throws the exhaustion error embedding the last
underlying error's message; and in `TradingEngine.executeBuyTransaction` this
rejection surfaces as a result with `success = false` and an empty
signature. -/
theorem executeTransaction_contract :
    (∀ (send : ℕ → Except String String) (j : ℕ) (sig : String),
        1 ≤ j → j ≤ DEFAULT_RETRY_CONFIG.maxAttempts →
        (∀ k, 1 ≤ k → k < j → ∃ e, send k = Except.error e) →
        send j = Except.ok sig →
        executeTransaction send = Except.ok sig)
    ∧ (∀ (send : ℕ → Except String String) (errs : ℕ → String),
        (∀ k, 1 ≤ k → k ≤ DEFAULT_RETRY_CONFIG.maxAttempts →
          send k = Except.error (errs k)) →
        executeTransaction send
          = Except.error (exhaustMsg DEFAULT_RETRY_CONFIG.maxAttempts
              (some (errs DEFAULT_RETRY_CONFIG.maxAttempts))))
    ∧ (∀ (amount : ℚ) (send : ℕ → Except String String) (elapsed : ℚ) (e : String),
        executeTransaction send = Except.error e →
        executeBuyTransaction true amount send elapsed
          = { signature := "", success := false, error := some e
            , executionTime := elapsed, gasUsed := none, volume := none }) := by
  refine ⟨?_, ?_, ?_⟩
  · intro send j sig hj1 hjm hfail hok
    exact execAttempts_first_ok send _ j sig hjm hok _ 1 none rfl hj1 hfail
  · intro send errs hfail
    exact execAttempts_all_fail send _ errs _ 1 none rfl (by decide) hfail
  · intro amount send elapsed e herr
    simp [executeBuyTransaction, herr]

/-- Witness for `executeTransaction_contract`: attempt 1 fails and attempt 2
succeeds under `sendOkAt2`; all three attempts fail under `sendAlwaysFail`,
and the buy wrapper reports that failure with an empty signature. -/
theorem executeTransaction_contract_witness :
    executeTransaction sendOkAt2 = Except.ok "sig2"
    ∧ executeTransaction sendAlwaysFail
        = Except.error (exhaustMsg 3 (some "fail3"))
    ∧ executeBuyTransaction true 1 sendAlwaysFail 5
        = { signature := "", success := false
          , error := some (exhaustMsg 3 (some "fail3"))
          , executionTime := 5, gasUsed := none, volume := none } := by
  have h2 : executeTransaction sendAlwaysFail
      = Except.error (exhaustMsg 3 (some "fail3")) :=
    executeTransaction_contract.2.1 sendAlwaysFail (fun k => "fail" ++ toString k)
      (fun k _ _ => rfl)
  refine ⟨?_, h2, ?_⟩
  · exact executeTransaction_contract.1 sendOkAt2 2 "sig2" (by decide) (by decide)
      (fun k hk1 hk2 => ⟨"boom", by
        have hk : k = 1 := by omega
        subst hk
        rfl⟩) rfl
  · exact executeTransaction_contract.2.2 1 sendAlwaysFail 5 _ h2

/-- C5: `executeTransactionsParallel` returns exactly one result per input
operation; the result at position `i` is the caught outcome of input
operation `i` (input order), with `success = true` exactly when that
operation's `executeTransaction` succeeded; and the result at position `i`
depends only on operation `i`, so another operation's failure never removes
or changes position `i`'s result. -/
theorem executeTransactionsParallel_contract :
    (∀ ops : List (ℕ → Except String String),
        (executeTransactionsParallel ops).length = ops.length)
    ∧ (∀ (ops : List (ℕ → Except String String)) (i : ℕ)
          (send : ℕ → Except String String),
        ops.get? i = some send →
        (executeTransactionsParallel ops).get? i = some (parallelResultOf send)
        ∧ ((parallelResultOf send).success = true
            ↔ ∃ sig, executeTransaction send = Except.ok sig))
    ∧ (∀ (ops₁ ops₂ : List (ℕ → Except String String)) (i : ℕ),
        ops₁.get? i = ops₂.get? i →
        (executeTransactionsParallel ops₁).get? i
          = (executeTransactionsParallel ops₂).get? i) := by
  refine ⟨?_, ?_, ?_⟩
  · intro ops
    simp [executeTransactionsParallel]
  · intro ops i send hget
    simp only [List.get?_eq_getElem?] at hget
    constructor
    · simp only [List.get?_eq_getElem?]
      simp [executeTransactionsParallel, List.getElem?_map, hget]
    · unfold parallelResultOf
      cases hx : executeTransaction send with
      | ok sig => simp [hx]
      | error e => simp [hx]
  · intro ops₁ ops₂ i hget
    simp only [List.get?_eq_getElem?] at hget
    simp only [List.get?_eq_getElem?]
    simp [executeTransactionsParallel, List.getElem?_map, hget]

/-- Witness for `executeTransactionsParallel_contract` on the two-element
batch `[sendAlwaysFail, sendOkAt2]`: two results come back, position 0 is the
isolated failure and position 1 still succeeds. -/
theorem executeTransactionsParallel_contract_witness :
    (executeTransactionsParallel [sendAlwaysFail, sendOkAt2]).length = 2
    ∧ (executeTransactionsParallel [sendAlwaysFail, sendOkAt2]).get? 0
        = some (parallelResultOf sendAlwaysFail)
    ∧ (executeTransactionsParallel [sendAlwaysFail, sendOkAt2]).get? 1
        = some (parallelResultOf sendOkAt2)
    ∧ ((parallelResultOf sendOkAt2).success = true
        ↔ ∃ sig, executeTransaction sendOkAt2 = Except.ok sig) := by
  refine ⟨executeTransactionsParallel_contract.1 [sendAlwaysFail, sendOkAt2], ?_, ?_, ?_⟩
  · exact (executeTransactionsParallel_contract.2.1 [sendAlwaysFail, sendOkAt2] 0
      sendAlwaysFail rfl).1
  · exact (executeTransactionsParallel_contract.2.1 [sendAlwaysFail, sendOkAt2] 1
      sendOkAt2 rfl).1
  · exact (executeTransactionsParallel_contract.2.1 [sendAlwaysFail, sendOkAt2] 1
      sendOkAt2 rfl).2

/-! ## Theorems: session orchestration (C1, C6, C7) -/

theorem countersOk_processBuyResult (amt : ℚ) (s : SessionState)
    (v : TransactionResult) (h : countersOk s) :
    countersOk (processBuyResult amt s (Settled.fulfilled v)) := by
  unfold countersOk processBuyResult at *
  cases hv : v.success <;> simp [hv] <;> omega

theorem countersOk_processSellResult (s : SessionState) (v : TransactionResult)
    (h : countersOk s) : countersOk (processSellResult s (Settled.fulfilled v)) := by
  unfold countersOk processSellResult at *
  cases hv : v.success <;> simp [hv] <;> omega

theorem countersOk_executeBuyTransactions (amt : ℚ) (txs : List TxEnv) :
    ∀ s, countersOk s → countersOk (executeBuyTransactions s amt txs) := by
  unfold executeBuyTransactions
  induction txs with
  | nil => intro s h; simpa using h
  | cons e rest ih =>
    intro s h
    simp only [List.map_cons, List.foldl_cons]
    exact ih _ (countersOk_processBuyResult amt s _ h)

theorem countersOk_executeSellBatch (range : AmountRange)
    (batch : List (ℚ × TxEnv)) :
    ∀ s, countersOk s → countersOk (executeSellBatch range s batch) := by
  unfold executeSellBatch
  induction batch with
  | nil => intro s h; simpa using h
  | cons p rest ih =>
    intro s h
    simp only [List.map_cons, List.foldl_cons]
    exact ih _ (countersOk_processSellResult s _ h)

theorem countersOk_batchFold (range : AmountRange)
    (batches : List (List (ℚ × TxEnv))) :
    ∀ s, countersOk s → countersOk (batches.foldl (executeSellBatch range) s) := by
  induction batches with
  | nil => intro s h; simpa using h
  | cons b rest ih =>
    intro s h
    simpa using ih _ (countersOk_executeSellBatch range b s h)

theorem countersOk_executeSellTransactions (range : AmountRange)
    (wallets : List (ℚ × TxEnv)) (s : SessionState) (h : countersOk s) :
    countersOk (executeSellTransactions range s wallets) := by
  unfold executeSellTransactions
  split_ifs
  · exact h
  · exact countersOk_batchFold range (toBatches5 wallets) s h

theorem countersOk_executeTradingCycle (cfg : BotConfig) (s : SessionState)
    (env : CycleEnv) (h : countersOk s) :
    countersOk (executeTradingCycle cfg s env).1 := by
  unfold executeTradingCycle
  cases henv : env.sellAbort <;> simp only [henv]
  · exact countersOk_executeSellTransactions _ _ _
      (countersOk_executeBuyTransactions _ _ _ h)
  · exact countersOk_executeBuyTransactions _ _ _ h

theorem countersOk_sessionLoop (cfg : BotConfig) (running : ℕ → Bool)
    (envs : ℕ → CycleEnv) :
    ∀ (remaining i : ℕ) (s : SessionState), countersOk s →
      countersOk (sessionLoop cfg running envs remaining i s).1 := by
  intro remaining
  induction remaining with
  | zero => intro i s h; simpa [sessionLoop] using h
  | succ n ih =>
    intro i s h
    rw [sessionLoop]
    cases hr : running i
    · simpa using h
    · simp only [if_true]
      rcases hc : executeTradingCycle cfg s (envs i) with ⟨s', ab⟩
      have hs' : countersOk s' := by
        have := countersOk_executeTradingCycle cfg s (envs i) h
        rwa [hc] at this
      cases ab
      · simpa using ih (i + 1) s' hs'
      · simpa using hs'

/-- C1: for every session configuration and environment, after
`executeSession` returns — by completing all cycles, by cooperative stop, or
with a propagated error — the counters satisfy
`totalTransactions = successfulTransactions + failedTransactions`: the
per-transaction executors always fulfil their promises (they catch every
error and return a result), so the rejected-promise branch of the accounting
loops, which increments `failedTransactions` alone, is never taken. -/
theorem session_counters_add_up (cfg : BotConfig) (poolFound : Bool)
    (running : ℕ → Bool) (envs : ℕ → CycleEnv) (endT : ℚ) :
    (executeSession cfg poolFound running envs endT).session.totalTransactions
      = (executeSession cfg poolFound running envs endT).session.successfulTransactions
        + (executeSession cfg poolFound running envs endT).session.failedTransactions := by
  have h0 : countersOk { newTradingSession with isActive := true } := by
    simp [countersOk, newTradingSession]
  unfold executeSession
  cases poolFound
  · simp [newTradingSession]
  · have hloop := countersOk_sessionLoop cfg running envs cfg.cycles 0 _ h0
    rcases hl : sessionLoop cfg running envs cfg.cycles 0
        { newTradingSession with isActive := true } with ⟨s', tr, out⟩
    rw [hl] at hloop
    simp only at hloop
    unfold countersOk at hloop
    cases out <;> simp [hl] <;> omega

/-- C6: whenever `executeSession` exits — normal completion, cooperative
stop, or a propagated fatal error (pool not found, or a cycle error) — the
session's end timestamp is set and its active flag is `false`; on the error
path this bookkeeping is performed (by the `catch` block) before the error
reaches the caller together with the final state. -/
theorem executeSession_finalizes (cfg : BotConfig) (poolFound : Bool)
    (running : ℕ → Bool) (envs : ℕ → CycleEnv) (endT : ℚ) :
    (executeSession cfg poolFound running envs endT).session.isActive = false
    ∧ (executeSession cfg poolFound running envs endT).session.endTime = some endT := by
  unfold executeSession
  cases poolFound
  · simp
  · rcases hl : sessionLoop cfg running envs cfg.cycles 0
        { newTradingSession with isActive := true } with ⟨s', tr, out⟩
    cases out <;> simp [hl]

theorem executeTradingCycle_abort (cfg : BotConfig) (s : SessionState)
    (env : CycleEnv) : (executeTradingCycle cfg s env).2 = env.sellAbort := by
  unfold executeTradingCycle
  cases h : env.sellAbort <;> simp [h]

theorem sessionLoop_trace (cfg : BotConfig) (running : ℕ → Bool)
    (envs : ℕ → CycleEnv) (hnoabort : ∀ i, (envs i).sellAbort = none) :
    ∀ (remaining i : ℕ) (s : SessionState),
      (sessionLoop cfg running envs remaining i s).2.1
        = (executedCycles running remaining i).flatMap
            (fun j => [Event.cycle j,
              Event.interSleep (getRandomDelay cfg.delay (envs j).delayRand * 1000)])
      ∧ (sessionLoop cfg running envs remaining i s).2.2 = Except.ok () := by
  intro remaining
  induction remaining with
  | zero => intro i s; simp [sessionLoop, executedCycles]
  | succ n ih =>
    intro i s
    rw [sessionLoop, executedCycles]
    cases hr : running i
    · simp
    · simp only [if_true]
      rcases hc : executeTradingCycle cfg s (envs i) with ⟨s', ab⟩
      have hab : ab = none := by
        have h := executeTradingCycle_abort cfg s (envs i)
        rw [hc] at h
        simp only at h
        rw [h, hnoabort i]
      subst hab
      obtain ⟨ht, ho⟩ := ih (i + 1) s'
      simp [ht, ho]

/-- C7 (amended): after EVERY executed trading cycle — including the final
cycle, and even when a cooperative stop was requested during the cycle — the
orchestrator sleeps `getRandomDelay(delay) * 1000` ms before re-checking the
loop and stop conditions (the trace is exactly cycle/sleep pairs); the drawn
delay lies in `[delay.min, delay.max)` whenever the range is valid and the
random draw lies in `[0, 1)` (and equals `delay.min` for a degenerate
range). -/
theorem interCycle_sleep_after_every_cycle (cfg : BotConfig)
    (running : ℕ → Bool) (envs : ℕ → CycleEnv) (endT : ℚ)
    (hnoabort : ∀ i, (envs i).sellAbort = none) :
    (executeSession cfg true running envs endT).trace
      = (executedCycles running cfg.cycles 0).flatMap
          (fun j => [Event.cycle j,
            Event.interSleep (getRandomDelay cfg.delay (envs j).delayRand * 1000)])
    ∧ (∀ i, cfg.delay.lo ≤ cfg.delay.hi →
        0 ≤ (envs i).delayRand → (envs i).delayRand < 1 →
        cfg.delay.lo ≤ getRandomDelay cfg.delay (envs i).delayRand
        ∧ (cfg.delay.lo < cfg.delay.hi →
            getRandomDelay cfg.delay (envs i).delayRand < cfg.delay.hi)) := by
  constructor
  · have h := sessionLoop_trace cfg running envs hnoabort cfg.cycles 0
      { newTradingSession with isActive := true }
    unfold executeSession
    rcases hl : sessionLoop cfg running envs cfg.cycles 0
        { newTradingSession with isActive := true } with ⟨s', tr, out⟩
    rw [hl] at h
    obtain ⟨ht, ho⟩ := h
    simp only at ht ho
    subst ho
    simpa [hl] using ht
  · intro i hle h0 h1
    unfold getRandomDelay
    constructor
    · have := mul_nonneg h0 (sub_nonneg.mpr hle)
      linarith
    · intro hlt
      have : (envs i).delayRand * (cfg.delay.hi - cfg.delay.lo)
          < 1 * (cfg.delay.hi - cfg.delay.lo) :=
        mul_lt_mul_of_pos_right h1 (by linarith)
      linarith

/-- Witness for `interCycle_sleep_after_every_cycle`: a one-cycle run with a
degenerate 2-second delay range produces exactly one cycle/sleep pair, and
the drawn delay is at least the range minimum. -/
theorem interCycle_sleep_after_every_cycle_witness :
    (executeSession cfgOneCycle true (fun _ => true) (fun _ => trivCycleEnv) 99).trace
      = (executedCycles (fun _ => true) cfgOneCycle.cycles 0).flatMap
          (fun j => [Event.cycle j,
            Event.interSleep (getRandomDelay cfgOneCycle.delay trivCycleEnv.delayRand * 1000)])
    ∧ cfgOneCycle.delay.lo ≤ getRandomDelay cfgOneCycle.delay trivCycleEnv.delayRand := by
  have h := interCycle_sleep_after_every_cycle cfgOneCycle (fun _ => true)
    (fun _ => trivCycleEnv) 99 (fun _ => rfl)
  exact ⟨h.1, (h.2 0 (by norm_num [cfgOneCycle]) (by norm_num [trivCycleEnv])
    (by norm_num [trivCycleEnv])).1⟩

/-- C7 (counterexample to the claim as stated): with a single cycle, a
resolvable pool and no stop request, the engine still sleeps the inter-cycle
delay after the final cycle — the trace is `[cycle 0, interSleep 2000]` and
ends with an inter-cycle sleep, where the claim says no sleep follows the
final cycle. -/
theorem sleep_after_final_cycle_cex :
    (executeSession cfgOneCycle true (fun _ => true) (fun _ => trivCycleEnv) 99).trace
      = [Event.cycle 0, Event.interSleep 2000]
    ∧ (executeSession cfgOneCycle true (fun _ => true)
        (fun _ => trivCycleEnv) 99).trace.getLast?
      = some (Event.interSleep 2000) := by
  have h := sessionLoop_trace cfgOneCycle (fun _ => true) (fun _ => trivCycleEnv)
    (fun _ => rfl) cfgOneCycle.cycles 0 { newTradingSession with isActive := true }
  rcases hl : sessionLoop cfgOneCycle (fun _ => true) (fun _ => trivCycleEnv)
      cfgOneCycle.cycles 0 { newTradingSession with isActive := true } with ⟨s', tr, out⟩
  rw [hl] at h
  obtain ⟨ht, ho⟩ := h
  simp only at ht ho
  subst ho
  have hexec : executedCycles (fun _ : ℕ => true) cfgOneCycle.cycles 0 = [0] := rfl
  rw [hexec] at ht
  have hd : getRandomDelay cfgOneCycle.delay trivCycleEnv.delayRand * 1000 = 2000 := by
    norm_num [getRandomDelay, cfgOneCycle, trivCycleEnv]
  have htr : tr = [Event.cycle 0, Event.interSleep 2000] := by
    rw [ht]
    simp [hd]
  constructor <;> unfold executeSession <;> simp [hl, htr]

end Bonkbot
